import Mathlib

/-!
Verification of the workspace discovery / name-resolution core of a
Notion personal-assistant repository.

The Python modules `integrations/notion_discovery.py`,
`integrations/notion_schemas.py`, `integrations/notion_mcp.py` and
`integrations/notion_tools.py` are shallowly embedded below: JSON-like
Python values become the inductive `JVal`, Python dicts become
insertion-ordered association lists, the remote Notion client becomes an
oracle (a script of responses per call), raised exceptions become
`Except` values, and file I/O becomes an explicit `Option JVal` field in
the engine state.
-/

/-- A JSON-like Python value (strings, numbers, booleans, None, lists,
string-keyed dicts).  Numbers are modelled as integers: the embedded code
only passes them through, never computes with them. -/
inductive JVal where
  | str (s : String)
  | num (n : Int)
  | bool (b : Bool)
  | null
  | arr (elems : List JVal)
  | obj (fields : List (String × JVal))

/-- A Python dict with string keys, in insertion order. -/
abbrev PyDict := List (String × JVal)

mutual
/-- Python `str()` of a JSON-like value (CPython dict/list repr shape). -/
def pyRepr : JVal → String
  | .str s => "\x27" ++ s ++ "\x27"
  | .num n => toString n
  | .bool b => if b then "True" else "False"
  | .null => "None"
  | .arr es => "[" ++ ", ".intercalate (pyReprList es) ++ "]"
  | .obj fs => "\x7b" ++ ", ".intercalate (pyReprFields fs) ++ "\x7d"

/-- `pyRepr` of each element of a list. -/
def pyReprList : List JVal → List String
  | [] => []
  | e :: es => pyRepr e :: pyReprList es

/-- `repr(key): repr(value)` of each field of a dict. -/
def pyReprFields : List (String × JVal) → List String
  | [] => []
  | (k, v) :: fs => ("\x27" ++ k ++ "\x27: " ++ pyRepr v) :: pyReprFields fs
end

/-- Python truthiness of a JSON-like value. -/
def pyTruthy : JVal → Bool
  | .str s => s != ""
  | .num n => n != 0
  | .bool b => b
  | .null => false
  | .arr es => !es.isEmpty
  | .obj fs => !fs.isEmpty

/-- `d.get(key)` on a Python dict: first binding of `key`, if any. -/
def dgetOpt : PyDict → String → Option JVal
  | [], _ => none
  | (k, v) :: rest, key => if k = key then some v else dgetOpt rest key

/-- `d.get(key, dflt)` on a Python dict. -/
def dget (d : PyDict) (key : String) (dflt : JVal) : JVal :=
  (dgetOpt d key).getD dflt

/-- Errors a misshapen value raises inside the embedded Python code. -/
inductive PyErr where
  | attributeError
  | typeError
  | keyError
deriving DecidableEq

/-- View a value as a dict, as Python `.get` access requires. -/
def asDict : JVal → Except PyErr PyDict
  | .obj fs => .ok fs
  | _ => .error .attributeError

/-- Python iteration over a value: lists yield elements, strings yield
one-character strings, dicts yield their keys; the rest raise. -/
def pyIter : JVal → Except PyErr (List JVal)
  | .arr es => .ok es
  | .str s => .ok (s.data.map fun c => .str (String.mk [c]))
  | .obj fs => .ok (fs.map fun p => .str p.1)
  | _ => .error .typeError

/-! ### `integrations/notion_schemas.py` — property encoders -/

/-- `title_property`: build a title property payload. -/
def title_property (text : String) : PyDict :=
  [("title", .arr [.obj [("text", .obj [("content", .str text)])]])]

/-- `rich_text_property`: build a rich_text property payload. -/
def rich_text_property (text : String) : PyDict :=
  [("rich_text", .arr [.obj [("text", .obj [("content", .str text)])]])]

/-- `number_property`: build a number property payload. -/
def number_property (value : Int) : PyDict :=
  [("number", .num value)]

/-- `select_property`: build a select property payload. -/
def select_property (name : String) : PyDict :=
  [("select", .obj [("name", .str name)])]

/-- `multi_select_property`: build a multi_select property payload. -/
def multi_select_property (names : List String) : PyDict :=
  [("multi_select", .arr (names.map fun n => .obj [("name", .str n)]))]

/-- `date_property`: build a date property payload; the `end` key is set
only when the optional second argument is truthy (a non-empty string). -/
def date_property (start : String) (stop : Option String) : PyDict :=
  [("date", .obj (("start", JVal.str start) ::
    (match stop with
     | some e => if e != "" then [("end", JVal.str e)] else []
     | none => [])))]

/-- `checkbox_property`: build a checkbox property payload. -/
def checkbox_property (checked : Bool) : PyDict :=
  [("checkbox", .bool checked)]

/-- `url_property`: build a url property payload. -/
def url_property (url : String) : PyDict :=
  [("url", .str url)]

/-- `email_property`: build an email property payload. -/
def email_property (email : String) : PyDict :=
  [("email", .str email)]

/-- `status_property`: build a status property payload. -/
def status_property (name : String) : PyDict :=
  [("status", .obj [("name", .str name)])]

/-! ### `integrations/notion_schemas.py` — property extractors -/

/-- `extract_title`: `prop.get("title", [])`, and if that is truthy, the
`plain_text` of its first element (default `""`).  Non-list truthy values
raise in Python (1-character string / dict key / not-subscriptable), which
the `Except` error cases mirror. -/
def extract_title (prop : PyDict) : Except PyErr JVal :=
  match dget prop "title" (.arr []) with
  | .arr [] => .ok (.str "")
  | .arr (x :: _) =>
    match x with
    | .obj f => .ok (dget f "plain_text" (.str ""))
    | _ => .error .attributeError
  | .str s => if s == "" then .ok (.str "") else .error .attributeError
  | .obj fs => if fs.isEmpty then .ok (.str "") else .error .keyError
  | .num n => if n == 0 then .ok (.str "") else .error .typeError
  | .bool b => if b then .error .typeError else .ok (.str "")
  | .null => .ok (.str "")

/-- `extract_rich_text`: same shape as `extract_title` over the
`rich_text` key. -/
def extract_rich_text (prop : PyDict) : Except PyErr JVal :=
  match dget prop "rich_text" (.arr []) with
  | .arr [] => .ok (.str "")
  | .arr (x :: _) =>
    match x with
    | .obj f => .ok (dget f "plain_text" (.str ""))
    | _ => .error .attributeError
  | .str s => if s == "" then .ok (.str "") else .error .attributeError
  | .obj fs => if fs.isEmpty then .ok (.str "") else .error .keyError
  | .num n => if n == 0 then .ok (.str "") else .error .typeError
  | .bool b => if b then .error .typeError else .ok (.str "")
  | .null => .ok (.str "")

/-- The type tags `extract_property_value` dispatches on. -/
def handledTypeTags : List String :=
  ["title", "rich_text", "number", "select", "multi_select", "date",
   "checkbox", "url", "email", "status", "formula", "relation", "rollup"]

/-- A list-comprehension `[s.get(key, "") for s in items]` whose elements
must be dicts. -/
def getEach (items : List JVal) (key : String) : Except PyErr (List JVal) :=
  items.mapM fun s => do
    let f ← asDict s
    pure (dget f key (.str ""))

/-- One nested-tag dispatch step, as in the `formula` / `rollup` branches:
`inner.get(inner.get("type", ""))`.  A non-string tag is looked up as a
dict key: absent in a string-keyed dict (`None`) when hashable, a raised
`TypeError` when not. -/
def nestedTagLookup (f : PyDict) : Except PyErr JVal :=
  match dget f "type" (.str "") with
  | .str t => .ok (dget f t .null)
  | .arr _ => .error .typeError
  | .obj _ => .error .typeError
  | _ => .ok .null

/-- `extract_property_value`: single dispatch over `prop.get("type", "")`.
The Python `==` chain against string literals can only succeed when the
tag is a string, so the embedding matches the tag first; any value whose
tag is not a handled string falls through to `str(prop)`. -/
def extract_property_value (prop : PyDict) : Except PyErr JVal :=
  let fallback : Except PyErr JVal := .ok (.str (pyRepr (.obj prop)))
  match dget prop "type" (.str "") with
  | .str prop_type =>
    if prop_type == "title" then
      extract_title prop
    else if prop_type == "rich_text" then
      extract_rich_text prop
    else if prop_type == "number" then
      .ok (dget prop "number" .null)
    else if prop_type == "select" then
      let sel := dget prop "select" .null
      if pyTruthy sel then do
        let f ← asDict sel
        pure (dget f "name" (.str ""))
      else .ok (.str "")
    else if prop_type == "multi_select" then do
      let items ← pyIter (dget prop "multi_select" (.arr []))
      let names ← getEach items "name"
      pure (.arr names)
    else if prop_type == "date" then
      let dobj := dget prop "date" .null
      if pyTruthy dobj then do
        let f ← asDict dobj
        pure (dget f "start" (.str ""))
      else .ok (.str "")
    else if prop_type == "checkbox" then
      .ok (dget prop "checkbox" (.bool false))
    else if prop_type == "url" then
      .ok (dget prop "url" (.str ""))
    else if prop_type == "email" then
      .ok (dget prop "email" (.str ""))
    else if prop_type == "status" then
      let st := dget prop "status" .null
      if pyTruthy st then do
        let f ← asDict st
        pure (dget f "name" (.str ""))
      else .ok (.str "")
    else if prop_type == "formula" then do
      let f ← asDict (dget prop "formula" (.obj []))
      nestedTagLookup f
    else if prop_type == "relation" then do
      let items ← pyIter (dget prop "relation" (.arr []))
      let ids ← getEach items "id"
      pure (.arr ids)
    else if prop_type == "rollup" then do
      let f ← asDict (dget prop "rollup" (.obj []))
      nestedTagLookup f
    else
      fallback
  | _ => fallback

/-! ### `integrations/notion_discovery.py` — data model -/

/-- `DatabaseInfo`: a discovered Notion database. -/
structure DatabaseInfo where
  id : String
  title : String
  properties : JVal
  parent_page_id : String

/-- A Python dict `Dict[str, DatabaseInfo]` in insertion order. -/
abbrev DbDict := List (String × DatabaseInfo)

/-- `d.get(key)` / `d[key]` on an insertion-ordered dict. -/
def dictGet : DbDict → String → Option DatabaseInfo
  | [], _ => none
  | (k, v) :: rest, key => if k = key then some v else dictGet rest key

/-- `d[key] = v`: overwrite in place (keeping the key's position) when the
key is present, append otherwise. -/
def dictSet : DbDict → String → DatabaseInfo → DbDict
  | [], key, v => [(key, v)]
  | (k, w) :: rest, key, v =>
    if k = key then (k, v) :: rest else (k, w) :: dictSet rest key v

/-- `d.update(other)`: set every binding of `other` into `d`, in order. -/
def dictUpdate (d : DbDict) (other : DbDict) : DbDict :=
  other.foldl (fun acc p => dictSet acc p.1 p.2) d

/-- One element of a database object's `title` array, keeping only its
optional string `plain_text` field (the only field the code reads). -/
structure RichTextItem where
  plain_text : Option String

/-- A database object as returned by `databases.retrieve` or by the
workspace search, keeping the fields the discovery code reads: `id`,
`title` (absent key modelled as `none`), `properties` (absent key
collapses onto the default `{}` = `.obj []`), and the string `page_id` of
the `parent` object when present. -/
structure DbObject where
  id : String
  title : Option (List RichTextItem)
  properties : JVal
  parent_page_id : Option String

/-- `_extract_database_title`: `database.get("title", [])`; if that array
is non-empty, `title_prop[0].get("plain_text", "Untitled")`, else
`"Untitled"`. -/
def extract_database_title (database : DbObject) : String :=
  match database.title.getD [] with
  | [] => "Untitled"
  | x :: _ => x.plain_text.getD "Untitled"

/-! ### `integrations/notion_discovery.py` — traversal strategies.

The remote client is an oracle: for each page id, the successive
responses that `blocks.children.list` returns on the 1st, 2nd, …  call
for that page, and likewise one response script for `search`.  A raised
exception is an `Except.error` entry in the script; an exhausted script
ends the pagination loop (a real client always answers, and every claim
supplies a long-enough script). -/

/-- A block of a `blocks.children.list` response: its `type` tag and
`id`. -/
structure Block where
  type : String
  id : String

/-- One `blocks.children.list` response page. -/
structure BlocksPage where
  results : List Block
  has_more : Bool
  next_cursor : Option String

/-- One `search` response page. -/
structure SearchPage where
  results : List DbObject
  has_more : Bool
  next_cursor : Option String

/-- The remote client as consumed by the rooted tree scan. -/
structure ChildClient where
  children : String → List (Except String BlocksPage)
  retrieve : String → Except String DbObject

/-- The remote client as consumed by the global search: its successive
`search` responses. -/
abbrev SearchClient := List (Except String SearchPage)

/-- The body of `_get_child_databases`'s `for block in results` loop:
record retrieved child databases (a failing `retrieve` raises: the
returned flag aborts the page), recurse into child pages via `recurse`
(which never raises), skip other blocks. -/
def childBlocksAux (retrieve : String → Except String DbObject)
    (recurse : String → DbDict) (page_id : String) :
    List Block → DbDict → DbDict × Bool
  | [], acc => (acc, false)
  | b :: bs, acc =>
    if b.type == "child_database" then
      match retrieve b.id with
      | .error _ => (acc, true)
      | .ok dbo =>
        let t := extract_database_title dbo
        childBlocksAux retrieve recurse page_id bs
          (dictSet acc t ⟨b.id, t, dbo.properties, page_id⟩)
    else if b.type == "child_page" then
      childBlocksAux retrieve recurse page_id bs
        (dictUpdate acc (recurse b.id))
    else
      childBlocksAux retrieve recurse page_id bs acc

/-- `_get_child_databases`'s `while has_more` pagination loop.  A raised
exception — an error response, or an abort inside the block loop — is
caught at the strategy boundary and the databases accumulated so far are
returned. -/
def childLoopAux (retrieve : String → Except String DbObject)
    (recurse : String → DbDict) (page_id : String) :
    List (Except String BlocksPage) → DbDict → DbDict
  | [], acc => acc
  | .error _ :: _, acc => acc
  | .ok pg :: rest, acc =>
    match childBlocksAux retrieve recurse page_id pg.results acc with
    | (acc2, true) => acc2
    | (acc2, false) =>
      if pg.has_more then childLoopAux retrieve recurse page_id rest acc2
      else acc2

/-- `_get_child_databases`: recursively scan child blocks of a page for
databases.  The Python recursion is unbounded and relies on the remote
hierarchy being finite; `fuel` bounds the recursion depth so the
embedding is total, and every claim is stated with enough fuel. -/
def get_child_databases (cl : ChildClient) : Nat → String → DbDict
  | 0, _ => []
  | fuel + 1, page_id =>
    childLoopAux cl.retrieve (fun cid => get_child_databases cl fuel cid)
      page_id (cl.children page_id) []

/-- Fold one search-result database into the snapshot:
`databases[title] = DatabaseInfo(id, title, properties, parent page id)`,
with `db.get("parent", {}).get("page_id", "")` modelled by
`parent_page_id.getD ""`. -/
def searchInsert (acc : DbDict) (db : DbObject) : DbDict :=
  let t := extract_database_title db
  dictSet acc t ⟨db.id, t, db.properties, db.parent_page_id.getD ""⟩

/-- `_search_all_databases`'s `while has_more` loop, also counting the
`search` calls made.  An error response is caught at the strategy
boundary: the databases accumulated so far are returned. -/
def searchGo : SearchClient → DbDict → DbDict × Nat
  | [], acc => (acc, 0)
  | .error _ :: _, acc => (acc, 1)
  | .ok pg :: rest, acc =>
    let acc2 := pg.results.foldl searchInsert acc
    if pg.has_more then
      let r := searchGo rest acc2
      (r.1, r.2 + 1)
    else (acc2, 1)

/-- `_search_all_databases`: search the entire workspace for databases;
returns the snapshot it built and the number of `search` calls made. -/
def search_all_databases (sc : SearchClient) : DbDict × Nat :=
  searchGo sc []

/-! ### `integrations/notion_discovery.py` — cache persistence and state -/

/-- The discovery engine's state: the configured parent page id, the
in-memory snapshot `_databases_cache`, and the content of
`data/databases_cache.json` (`none` = file absent; the parsed JSON
document stands in for the file's bytes, `json.dump` / `json.load` being
mutually inverse on serializable values). -/
structure DiscoveryState where
  parent_page_id : Option String
  databases_cache : DbDict
  cache_file : Option JVal

/-- `asdict(db)` for a `DatabaseInfo`, in field declaration order. -/
def dbInfoToJson (d : DatabaseInfo) : JVal :=
  .obj [("id", .str d.id), ("title", .str d.title),
        ("properties", d.properties), ("parent_page_id", .str d.parent_page_id)]

/-- Whether `key` is absent from a string-keyed association list. -/
def keyAbsent {α : Type} (key : String) : List (String × α) → Bool
  | [] => true
  | (k, _) :: rest => !(k = key : Bool) && keyAbsent key rest

/-- Whether the keys of a string-keyed association list are pairwise
distinct — the invariant of every Python dict. -/
def keysNodup {α : Type} : List (String × α) → Bool
  | [] => true
  | (k, _) :: rest => keyAbsent k rest && keysNodup rest

/-- `DatabaseInfo(**data)`: succeeds exactly when `data` is a dict whose
keys are precisely the four field names (extra or missing keyword
arguments raise `TypeError`, which `load_cache` catches).  The dataclass
declares its fields as `str`, so the embedding reads string values. -/
def dbInfoFromJson : JVal → Option DatabaseInfo
  | .obj f =>
    match dgetOpt f "id", dgetOpt f "title",
          dgetOpt f "properties", dgetOpt f "parent_page_id" with
    | some (.str i), some (.str t), some p, some (.str pp) =>
      if f.length == 4 && keysNodup f then some ⟨i, t, p, pp⟩ else none
    | _, _, _, _ => none
  | _ => none

/-- The serialized cache document: `{name: asdict(db) for name, db in …}`. -/
def cacheToJson (c : DbDict) : JVal :=
  .obj (c.map fun p => (p.1, dbInfoToJson p.2))

/-- Parse every field of the cache document into a `DatabaseInfo`,
failing (as the comprehension in `load_cache` does) if any entry fails. -/
def cacheFieldsFromJson : List (String × JVal) → Option DbDict
  | [] => some []
  | (n, v) :: rest =>
    match dbInfoFromJson v, cacheFieldsFromJson rest with
    | some d, some r => some ((n, d) :: r)
    | _, _ => none

/-- Parse a cache document. -/
def cacheFromJson : JVal → Option DbDict
  | .obj f => cacheFieldsFromJson f
  | _ => none

/-- `_save_cache`: persist the in-memory snapshot to the cache file. -/
def save_cache (st : DiscoveryState) : DiscoveryState :=
  { st with cache_file := some (cacheToJson st.databases_cache) }

/-- `load_cache`: `False` when the file is absent or unparseable (the
in-memory snapshot is then left unchanged), `True` with the snapshot
replaced by the parsed content otherwise. -/
def load_cache (st : DiscoveryState) : Bool × DiscoveryState :=
  match st.cache_file with
  | none => (false, st)
  | some v =>
    match cacheFromJson v with
    | some c => (true, { st with databases_cache := c })
    | none => (false, st)

/-! ### `integrations/notion_discovery.py` — discovery and resolution -/

/-- `discover_all_databases`: strategy A (rooted tree scan) when a parent
page id is configured and truthy, then strategy B (global search) merged
over it; the result wholesale replaces the in-memory snapshot and is
persisted via `_save_cache`. -/
def discover_all_databases (cl : ChildClient) (sc : SearchClient)
    (fuel : Nat) (st : DiscoveryState) : DbDict × DiscoveryState :=
  let dbs : DbDict := []
  let dbs :=
    match st.parent_page_id with
    | some pid =>
      if pid != "" then dictUpdate dbs (get_child_databases cl fuel pid) else dbs
    | none => dbs
  let dbs := dictUpdate dbs (search_all_databases sc).1
  (dbs, save_cache { st with databases_cache := dbs })

/-- Python `str.lower`, modelled character by character with
`Char.toLower`; the two agree on ASCII titles. -/
def strLower (s : String) : String :=
  ⟨s.data.map Char.toLower⟩

/-- `needle` starts `hay` (character lists). -/
def charsStartWith : List Char → List Char → Bool
  | [], _ => true
  | _ :: _, [] => false
  | a :: as, b :: bs => a == b && charsStartWith as bs

/-- Python `needle in hay` on character lists. -/
def charsContain : List Char → List Char → Bool
  | needle, [] => needle.isEmpty
  | needle, c :: t => charsStartWith needle (c :: t) || charsContain needle t

/-- Python `needle in hay` on strings. -/
def strIn (needle hay : String) : Bool :=
  charsContain needle.data hay.data

/-- `get_database_by_name`: exact key match, then first case-insensitive
full match, then first case-insensitive substring match, else `None`. -/
def get_database_by_name (cache : DbDict) (name : String) :
    Option DatabaseInfo :=
  match dictGet cache name with
  | some v => some v
  | none =>
    match cache.find? fun p => strLower p.1 == strLower name with
    | some p => some p.2
    | none =>
      match cache.find? fun p => strIn (strLower name) (strLower p.1) with
      | some p => some p.2
      | none => none

/-! ### `integrations/notion_mcp.py` / `notion_tools.py` — create_entry -/

/-- `get_database_id`: resolve a name to the database's id via the
discovery cache. -/
def get_database_id (cache : DbDict) (database_name : String) :
    Option String :=
  (get_database_by_name cache database_name).map (·.id)

/-- The operations `create_entry` performs after parsing its payload:
local name resolution, then the remote `pages.create` call. -/
inductive EntryAction where
  | resolveName (name : String)
  | createRemote (db_id : String) (props : JVal)

/-- `create_entry` (the `create_database_entry` tool): parse
`properties_json` (`json.loads` is abstracted as `loads`, any partial
parse function), resolve the database, create the entry.  Returns the
reply string and the trace of actions attempted; `created_id` abstracts
the id of the page the remote call returns. -/
def create_entry (loads : String → Option JVal) (cache : DbDict)
    (created_id : String) (database_name properties_json : String) :
    String × List EntryAction :=
  match loads properties_json with
  | none => ("Error: properties_json is not valid JSON", [])
  | some props =>
    match get_database_id cache database_name with
    | none =>
      ("Database \x27" ++ database_name ++ "\x27 not found",
       [.resolveName database_name])
    | some db_id =>
      ("Created entry in \x27" ++ database_name ++ "\x27 with ID: " ++ created_id,
       [.resolveName database_name, .createRemote db_id props])


/-! ### Helper lemmas on dicts and resolution -/

/-- Setting a key makes it readable. -/
theorem dictGet_dictSet_self (d : DbDict) (k : String) (v : DatabaseInfo) :
    dictGet (dictSet d k v) k = some v := by
  induction d with
  | nil => simp [dictSet, dictGet]
  | cons p rest ih =>
    obtain ⟨k1, w⟩ := p
    by_cases h : k1 = k
    · simp [dictSet, dictGet, h]
    · simp [dictSet, dictGet, h, ih]

/-- Setting one key leaves the others unchanged. -/
theorem dictGet_dictSet_other (d : DbDict) (k k' : String)
    (v : DatabaseInfo) (h : k' ≠ k) :
    dictGet (dictSet d k v) k' = dictGet d k' := by
  induction d with
  | nil => simp [dictSet, dictGet, Ne.symm h]
  | cons p rest ih =>
    obtain ⟨k1, w⟩ := p
    by_cases h1 : k1 = k
    · subst h1
      simp [dictSet, dictGet, Ne.symm h]
    · by_cases h2 : k1 = k'
      · subst h2
        simp [dictSet, dictGet, h1]
      · simp [dictSet, dictGet, h1, h2, ih]

/-- Updating with bindings that avoid `k` leaves `k`'s value unchanged. -/
theorem dictGet_dictUpdate_absent (o : DbDict) :
    ∀ (d : DbDict) (k : String), keyAbsent k o = true →
      dictGet (dictUpdate d o) k = dictGet d k := by
  induction o with
  | nil => intro d k _; simp [dictUpdate]
  | cons p rest ih =>
    intro d k h
    obtain ⟨k1, w⟩ := p
    simp only [keyAbsent, Bool.and_eq_true, Bool.not_eq_eq_eq_not,
      Bool.not_true, decide_eq_false_iff_not] at h
    have step : dictUpdate d ((k1, w) :: rest) = dictUpdate (dictSet d k1 w) rest := by
      simp [dictUpdate]
    rw [step, ih _ _ h.2, dictGet_dictSet_other _ _ _ _ (Ne.symm h.1)]

/-- After `d.update(o)` with `o`'s keys pairwise distinct, every binding
of `o` is readable in the result. -/
theorem dictGet_dictUpdate_of_mem (o : DbDict) :
    ∀ (d : DbDict) (k : String) (v : DatabaseInfo),
      keysNodup o = true → dictGet o k = some v →
      dictGet (dictUpdate d o) k = some v := by
  induction o with
  | nil => intro d k v _ h; simp [dictGet] at h
  | cons p rest ih =>
    intro d k v hnd h
    obtain ⟨k1, w⟩ := p
    simp only [keysNodup, Bool.and_eq_true] at hnd
    have step : dictUpdate d ((k1, w) :: rest) = dictUpdate (dictSet d k1 w) rest := by
      simp [dictUpdate]
    rw [step]
    by_cases hk : k1 = k
    · subst hk
      simp only [dictGet, if_pos trivial, Option.some.injEq] at h
      rw [dictGet_dictUpdate_absent _ _ _ hnd.1, dictGet_dictSet_self, h]
    · simp only [dictGet, if_neg hk] at h
      exact ih _ _ _ hnd.2 h

/-- `dictSet` never resurrects an absent key other than its own. -/
theorem keyAbsent_dictSet (d : DbDict) (k k' : String) (v : DatabaseInfo)
    (h : keyAbsent k' d = true) (hne : k ≠ k') :
    keyAbsent k' (dictSet d k v) = true := by
  induction d with
  | nil => simp [dictSet, keyAbsent, hne]
  | cons p rest ih =>
    obtain ⟨k1, w⟩ := p
    simp only [keyAbsent, Bool.and_eq_true, Bool.not_eq_eq_eq_not,
      Bool.not_true, decide_eq_false_iff_not] at h
    by_cases h1 : k1 = k
    · subst h1
      simp [dictSet, keyAbsent, h.1, h.2]
    · simp only [dictSet, if_neg h1]
      simp only [keyAbsent, Bool.and_eq_true, Bool.not_eq_eq_eq_not,
        Bool.not_true, decide_eq_false_iff_not]
      exact ⟨h.1, ih h.2⟩

/-- `dictSet` preserves key distinctness. -/
theorem keysNodup_dictSet (d : DbDict) (k : String) (v : DatabaseInfo)
    (h : keysNodup d = true) : keysNodup (dictSet d k v) = true := by
  induction d with
  | nil => simp [dictSet, keysNodup, keyAbsent]
  | cons p rest ih =>
    obtain ⟨k1, w⟩ := p
    simp only [keysNodup, Bool.and_eq_true] at h
    by_cases h1 : k1 = k
    · subst h1
      simp only [dictSet, if_pos rfl]
      simp only [keysNodup, Bool.and_eq_true]
      exact ⟨h.1, h.2⟩
    · simp only [dictSet, if_neg h1]
      simp only [keysNodup, Bool.and_eq_true]
      exact ⟨keyAbsent_dictSet _ _ _ _ h.1 (Ne.symm h1), ih h.2⟩

/-- Folding `searchInsert` preserves key distinctness. -/
theorem keysNodup_foldl_searchInsert (dbs : List DbObject) :
    ∀ (acc : DbDict), keysNodup acc = true →
      keysNodup (dbs.foldl searchInsert acc) = true := by
  induction dbs with
  | nil => intro acc h; simpa using h
  | cons db rest ih =>
    intro acc h
    simp only [List.foldl_cons]
    exact ih _ (keysNodup_dictSet _ _ _ h)

/-- The snapshot the global search builds has pairwise-distinct keys. -/
theorem keysNodup_searchGo (sc : SearchClient) :
    ∀ (acc : DbDict), keysNodup acc = true →
      keysNodup (searchGo sc acc).1 = true := by
  induction sc with
  | nil => intro acc h; simpa [searchGo] using h
  | cons r rest ih =>
    intro acc h
    match r with
    | .error e => simpa [searchGo] using h
    | .ok pg =>
      by_cases hm : pg.has_more
      · simpa [searchGo, hm] using ih _ (keysNodup_foldl_searchInsert _ _ h)
      · simpa [searchGo, hm] using keysNodup_foldl_searchInsert _ _ h

/-- Tier 1 of `get_database_by_name`: an exact key match wins. -/
theorem gdbn_exact (cache : DbDict) (name : String) (v : DatabaseInfo)
    (h : dictGet cache name = some v) :
    get_database_by_name cache name = some v := by
  simp [get_database_by_name, h]

/-- Tier 2 of `get_database_by_name`: with no exact match, the first
case-insensitive full match wins. -/
theorem gdbn_tier2 (cache : DbDict) (name : String) (p : String × DatabaseInfo)
    (h1 : dictGet cache name = none)
    (h2 : cache.find? (fun q => strLower q.1 == strLower name) = some p) :
    get_database_by_name cache name = some p.2 := by
  simp [get_database_by_name, h1, h2]

/-- Tier 3 of `get_database_by_name`: with no exact and no
case-insensitive match, the first substring match wins. -/
theorem gdbn_tier3 (cache : DbDict) (name : String) (p : String × DatabaseInfo)
    (h1 : dictGet cache name = none)
    (h2 : cache.find? (fun q => strLower q.1 == strLower name) = none)
    (h3 : cache.find? (fun q => strIn (strLower name) (strLower q.1)) = some p) :
    get_database_by_name cache name = some p.2 := by
  simp [get_database_by_name, h1, h2, h3]

/-- `get_database_by_name` is absent when all three tiers fail. -/
theorem gdbn_nomatch (cache : DbDict) (name : String)
    (h1 : dictGet cache name = none)
    (h2 : cache.find? (fun q => strLower q.1 == strLower name) = none)
    (h3 : cache.find? (fun q => strIn (strLower name) (strLower q.1)) = none) :
    get_database_by_name cache name = none := by
  simp [get_database_by_name, h1, h2, h3]

/-- Lowercasing maps the empty string, and only it, to the empty string. -/
theorem strLower_eq_empty_iff (s : String) : strLower s = "" ↔ s = "" := by
  obtain ⟨data⟩ := s
  simp only [strLower, String.ext_iff]
  cases data <;> simp

/-- The empty string is a substring of every string. -/
theorem strIn_empty (hay : String) : strIn "" hay = true := by
  obtain ⟨data⟩ := hay
  cases data with
  | nil => rfl
  | cons c t => rfl

/-- A key none of the entries carry resolves to nothing. -/
theorem dictGet_eq_none (cache : DbDict) (key : String)
    (h : ∀ p ∈ cache, p.1 ≠ key) : dictGet cache key = none := by
  induction cache with
  | nil => rfl
  | cons p rest ih =>
    have hp := h p (by simp)
    simp only [dictGet, if_neg hp]
    exact ih fun q hq => h q (by simp [hq])

/-- The snapshot obtained by folding the results of a run of search
pages, in order, into `acc`. -/
def searchPagesFold (pages : List SearchPage) (acc : DbDict) : DbDict :=
  pages.foldl (fun a pg => pg.results.foldl searchInsert a) acc

/-- A search run over `N` continuing pages, one final page, and anything
after it: every item of the `N + 1` pages is accumulated, exactly
`N + 1` calls are made, and the script's tail is never consumed. -/
theorem searchGo_run (ps : List SearchPage) :
    ∀ (last : SearchPage) (rest : SearchClient) (acc : DbDict),
      (∀ p ∈ ps, p.has_more = true) → last.has_more = false →
      searchGo (ps.map .ok ++ .ok last :: rest) acc =
        (searchPagesFold (ps ++ [last]) acc, ps.length + 1) := by
  induction ps with
  | nil =>
    intro last rest acc _ hlast
    simp [searchGo, hlast, searchPagesFold]
  | cons p tl ih =>
    intro last rest acc hall hlast
    have hp : p.has_more = true := hall p (by simp)
    have htl : ∀ q ∈ tl, q.has_more = true := fun q hq => hall q (by simp [hq])
    simp only [List.map_cons, List.cons_append, searchGo, hp, if_pos,
      List.append_eq]
    rw [ih last rest _ htl hlast]
    simp [searchPagesFold]

/-- An exception anywhere in the search script is caught at the strategy
boundary: the snapshot is the one accumulated from the pages before it. -/
theorem searchGo_fst_error (script : SearchClient) :
    ∀ (e : String) (rest : SearchClient) (acc : DbDict),
      (searchGo (script ++ .error e :: rest) acc).1 = (searchGo script acc).1 := by
  induction script with
  | nil => intro e rest acc; simp [searchGo]
  | cons r tl ih =>
    intro e rest acc
    match r with
    | .error e1 => simp [searchGo]
    | .ok pg =>
      by_cases hm : pg.has_more
      · simp only [List.cons_append, searchGo, hm, if_pos]
        exact ih e rest _
      · simp [searchGo, hm]

/-- An exception anywhere in a page's children script is caught at the
strategy boundary: the scan returns what the pages before it produced. -/
theorem childLoopAux_error (script : List (Except String BlocksPage)) :
    ∀ (retrieve : String → Except String DbObject)
      (recurse : String → DbDict) (page_id : String)
      (e : String) (rest : List (Except String BlocksPage)) (acc : DbDict),
      childLoopAux retrieve recurse page_id (script ++ .error e :: rest) acc =
        childLoopAux retrieve recurse page_id script acc := by
  induction script with
  | nil => intro retrieve recurse page_id e rest acc; simp [childLoopAux]
  | cons r tl ih =>
    intro retrieve recurse page_id e rest acc
    match r with
    | .error e1 => simp [childLoopAux]
    | .ok pg =>
      simp only [List.cons_append, childLoopAux]
      match hb : childBlocksAux retrieve recurse page_id pg.results acc with
      | (acc2, true) => rfl
      | (acc2, false) =>
        by_cases hm : pg.has_more
        · simp only [hm, if_pos]
          exact ih _ _ _ e rest _
        · simp [hm]

/-- `DatabaseInfo(**asdict(db))` reconstructs `db`. -/
theorem dbInfoFromJson_toJson (d : DatabaseInfo) :
    dbInfoFromJson (dbInfoToJson d) = some d := rfl

/-- Serializing and reparsing every cache entry reconstructs the cache. -/
theorem cacheFieldsFromJson_map (c : DbDict) :
    cacheFieldsFromJson (c.map fun p => (p.1, dbInfoToJson p.2)) = some c := by
  induction c with
  | nil => rfl
  | cons p rest ih =>
    simp only [List.map_cons, cacheFieldsFromJson, dbInfoFromJson_toJson, ih]

/-- The parsed cache document reconstructs the snapshot. -/
theorem cacheFromJson_toJson (c : DbDict) :
    cacheFromJson (cacheToJson c) = some c := by
  simp only [cacheToJson, cacheFromJson]
  exact cacheFieldsFromJson_map c

/-- The multi_select comprehension pulls each option name back out. -/
theorem getEach_multi_select (names : List String) :
    getEach (names.map fun n => .obj [("name", .str n)]) "name" =
      .ok (names.map .str) := by
  induction names with
  | nil => rfl
  | cons n rest ih =>
    simp only [List.map_cons, getEach, List.mapM_cons] at *
    rw [ih]
    rfl

/-- `str(prop)` of a dict is never the empty string. -/
theorem pyRepr_obj_ne_empty (fs : List (String × JVal)) :
    pyRepr (.obj fs) ≠ "" := by
  intro h
  have hl := congrArg String.length h
  rw [pyRepr] at hl
  simp only [String.length_append] at hl
  simp at hl
  exact absurd hl.2 (by decide)

/-! ### Claim theorems -/

/-- A sample cached database. -/
def sampleInfoA : DatabaseInfo := ⟨"db-a", "Tasks", .obj [], ""⟩

/-- C1: `get_database_by_name` is a three-tier lookup tried in order with
the first match winning — exact key match, then case-insensitive full
match, then case-insensitive substring match; on the snapshot
`{"Tasks": A}`, `"tasks"` resolves to `A` with the exact tier failing
(tier 2 fires) and `"Task"` resolves to `A` with the exact and
case-insensitive tiers failing (tier 3 fires); when no tier matches the
result is `none`. -/
theorem c1_three_tier_name_resolution :
    (∀ A : DatabaseInfo,
      dictGet [("Tasks", A)] "tasks" = none ∧
      get_database_by_name [("Tasks", A)] "tasks" = some A) ∧
    (∀ A : DatabaseInfo,
      dictGet [("Tasks", A)] "Task" = none ∧
      ([("Tasks", A)] : DbDict).find?
        (fun q => strLower q.1 == strLower "Task") = none ∧
      get_database_by_name [("Tasks", A)] "Task" = some A) ∧
    (∀ (cache : DbDict) (name : String) (v : DatabaseInfo),
      dictGet cache name = some v →
      get_database_by_name cache name = some v) ∧
    (∀ (cache : DbDict) (name : String) (p : String × DatabaseInfo),
      dictGet cache name = none →
      cache.find? (fun q => strLower q.1 == strLower name) = some p →
      get_database_by_name cache name = some p.2) ∧
    (∀ (cache : DbDict) (name : String) (p : String × DatabaseInfo),
      dictGet cache name = none →
      cache.find? (fun q => strLower q.1 == strLower name) = none →
      cache.find? (fun q => strIn (strLower name) (strLower q.1)) = some p →
      get_database_by_name cache name = some p.2) ∧
    (∀ (cache : DbDict) (name : String),
      dictGet cache name = none →
      cache.find? (fun q => strLower q.1 == strLower name) = none →
      cache.find? (fun q => strIn (strLower name) (strLower q.1)) = none →
      get_database_by_name cache name = none) :=
  ⟨fun _ => ⟨rfl, rfl⟩, fun _ => ⟨rfl, rfl, rfl⟩,
   gdbn_exact, gdbn_tier2, gdbn_tier3, gdbn_nomatch⟩

/-- C1 witness: the tiers at the concrete snapshot `{"Tasks": A}`. -/
theorem c1_three_tier_name_resolution_witness :
    get_database_by_name [("Tasks", sampleInfoA)] "tasks" = some sampleInfoA ∧
    get_database_by_name [("Tasks", sampleInfoA)] "Task" = some sampleInfoA ∧
    get_database_by_name [("Tasks", sampleInfoA)] "zzz" = none :=
  ⟨(c1_three_tier_name_resolution.1 sampleInfoA).2,
   (c1_three_tier_name_resolution.2.1 sampleInfoA).2.2,
   c1_three_tier_name_resolution.2.2.2.2.2 [("Tasks", sampleInfoA)] "zzz"
     rfl rfl rfl⟩

/-- The first entry of the C10 counterexample snapshot. -/
def c10First : DatabaseInfo := ⟨"db-a", "A", .obj [], ""⟩

/-- A cached database whose title is the empty string. -/
def c10Empty : DatabaseInfo := ⟨"db-b", "", .obj [], ""⟩

/-- A snapshot whose second entry has the empty string as its title. -/
def c10Cache : DbDict := [("A", c10First), ("", c10Empty)]

/-- C10 counterexample: on the non-empty snapshot
`{"A": c10First, "": c10Empty}`, resolving `""` returns the second entry
(the exact tier matches the empty title), not the first entry in
insertion order, refuting the claim as stated. -/
theorem c10_empty_name_counterexample :
    get_database_by_name c10Cache "" = some c10Empty ∧
    c10Cache.head? = some ("A", c10First) ∧
    c10Empty ≠ c10First :=
  ⟨rfl, rfl, fun h => absurd (congrArg DatabaseInfo.id h) (by decide)⟩

/-- C10 (amended): resolving the empty string returns the first entry
whose title is the empty string when one exists (the exact tier); when no
title is the empty string it returns the first entry in the snapshot's
insertion order, because the empty string is a substring of every title
at the third tier; and it returns `none` exactly when the snapshot is
empty. -/
theorem c10_empty_name_resolution_amended :
    (∀ (cache : DbDict) (v : DatabaseInfo),
      dictGet cache "" = some v →
      get_database_by_name cache "" = some v) ∧
    (∀ cache : DbDict, (∀ p ∈ cache, p.1 ≠ "") →
      get_database_by_name cache "" = cache.head?.map (·.2)) ∧
    (∀ cache : DbDict,
      (get_database_by_name cache "" = none ↔ cache = [])) := by
  refine ⟨fun cache v h => gdbn_exact cache "" v h, ?_, ?_⟩
  · intro cache h
    cases cache with
    | nil => rfl
    | cons p rest =>
      have h1 : dictGet (p :: rest) "" = none := dictGet_eq_none _ _ h
      have h2 : (p :: rest).find? (fun q => strLower q.1 == strLower "") = none := by
        rw [List.find?_eq_none]
        intro q hq
        simp only [Bool.not_eq_true, beq_eq_false_iff_ne]
        intro hc
        have : q.1 = "" := (strLower_eq_empty_iff q.1).mp (by simpa using hc)
        exact h q hq this
      have h3 : (p :: rest).find?
          (fun q => strIn (strLower "") (strLower q.1)) = some p :=
        List.find?_cons_of_pos _ (by simpa using strIn_empty (strLower p.1))
      rw [gdbn_tier3 _ _ _ h1 h2 h3]
      rfl
  · intro cache
    cases cache with
    | nil => simp [get_database_by_name, dictGet]
    | cons p rest =>
      simp only [List.cons_ne_nil, iff_false]
      cases hd : dictGet (p :: rest) "" with
      | some v => rw [gdbn_exact _ _ _ hd]; simp
      | none =>
        cases ht2 : (p :: rest).find? (fun q => strLower q.1 == strLower "") with
        | some q => rw [gdbn_tier2 _ _ _ hd ht2]; simp
        | none =>
          have h3 : (p :: rest).find?
              (fun q => strIn (strLower "") (strLower q.1)) = some p :=
            List.find?_cons_of_pos _ (by simpa using strIn_empty (strLower p.1))
          rw [gdbn_tier3 _ _ _ hd ht2 h3]
          simp

/-- C10 witness: the amended claim at concrete snapshots. -/
theorem c10_empty_name_resolution_amended_witness :
    get_database_by_name c10Cache "" = some c10Empty ∧
    get_database_by_name [("Tasks", sampleInfoA)] "" =
      ([("Tasks", sampleInfoA)] : DbDict).head?.map (·.2) ∧
    (get_database_by_name [] "" = none ↔ ([] : DbDict) = []) :=
  ⟨c10_empty_name_resolution_amended.1 c10Cache c10Empty rfl,
   c10_empty_name_resolution_amended.2.1 [("Tasks", sampleInfoA)] (by decide),
   c10_empty_name_resolution_amended.2.2 []⟩

/-- C2: with a parent page configured, strategy A (rooted tree scan) runs
first and strategy B (global search) second; any title resolved by both
strategies ends up mapped to strategy B's entry in the merged snapshot,
and the merged result wholesale replaces the previous in-memory
snapshot, whatever it held. -/
theorem c2_merge_search_overwrites :
    ∀ (cl : ChildClient) (sc : SearchClient) (fuel : Nat)
      (st : DiscoveryState) (pid t : String) (vA vB : DatabaseInfo),
      st.parent_page_id = some pid → pid ≠ "" →
      dictGet (get_child_databases cl fuel pid) t = some vA →
      dictGet (search_all_databases sc).1 t = some vB →
      dictGet (discover_all_databases cl sc fuel st).1 t = some vB ∧
      (discover_all_databases cl sc fuel st).2.databases_cache =
        (discover_all_databases cl sc fuel st).1 := by
  intro cl sc fuel st pid t vA vB hp hp' hA hB
  constructor
  · have hb : keysNodup (search_all_databases sc).1 = true :=
      keysNodup_searchGo sc [] rfl
    have hd : (discover_all_databases cl sc fuel st).1 =
        dictUpdate (dictUpdate [] (get_child_databases cl fuel pid))
          (search_all_databases sc).1 := by
      simp [discover_all_databases, hp, hp']
    rw [hd]
    exact dictGet_dictUpdate_of_mem _ _ _ _ hb hB
  · rfl

/-- The tree-scan client of the C2 witness: one page with one child
database block whose retrieved title is `"X"`. -/
def c2Child : ChildClient :=
  ⟨fun _ => [.ok ⟨[⟨"child_database", "idA"⟩], false, none⟩],
   fun i => .ok ⟨i, some [⟨some "X"⟩], .obj [], none⟩⟩

/-- The search client of the C2 witness: one page with one database also
titled `"X"` but carrying a different id. -/
def c2Search : SearchClient :=
  [.ok ⟨[⟨"idB", some [⟨some "X"⟩], .obj [], none⟩], false, none⟩]

/-- C2 witness: at the concrete clients, the merged snapshot maps `"X"`
to strategy B's id. -/
theorem c2_merge_search_overwrites_witness :
    dictGet (discover_all_databases c2Child c2Search 1
      ⟨some "root", [("old", sampleInfoA)], none⟩).1 "X" =
      some ⟨"idB", "X", .obj [], ""⟩ ∧
    (discover_all_databases c2Child c2Search 1
      ⟨some "root", [("old", sampleInfoA)], none⟩).2.databases_cache =
      (discover_all_databases c2Child c2Search 1
        ⟨some "root", [("old", sampleInfoA)], none⟩).1 :=
  c2_merge_search_overwrites c2Child c2Search 1
    ⟨some "root", [("old", sampleInfoA)], none⟩ "root" "X"
    ⟨"idA", "X", .obj [], "root"⟩ ⟨"idB", "X", .obj [], ""⟩
    rfl (by decide) rfl rfl

/-- C3: discovery never raises.  For every client behavior — including
scripts that raise at any point — `discover_all_databases` returns the
merge of the two strategies' (possibly partial) snapshots and persists
it; an exception in the search script is caught at that strategy's
boundary, leaving exactly the snapshot accumulated from the responses
before it; and an exception in a page's children script is caught at the
scan's boundary the same way. -/
theorem c3_discovery_never_raises :
    (∀ (cl : ChildClient) (sc : SearchClient) (fuel : Nat)
       (st : DiscoveryState) (pid : String),
      st.parent_page_id = some pid → pid ≠ "" →
      (discover_all_databases cl sc fuel st).1 =
        dictUpdate (dictUpdate [] (get_child_databases cl fuel pid))
          (search_all_databases sc).1 ∧
      (discover_all_databases cl sc fuel st).2 =
        save_cache { st with databases_cache :=
          (discover_all_databases cl sc fuel st).1 }) ∧
    (∀ (script : SearchClient) (e : String) (rest : SearchClient),
      (search_all_databases (script ++ .error e :: rest)).1 =
        (search_all_databases script).1) ∧
    (∀ (cl : ChildClient) (fuel : Nat) (page_id : String)
       (script : List (Except String BlocksPage)) (e : String)
       (rest : List (Except String BlocksPage)),
      cl.children page_id = script ++ .error e :: rest →
      get_child_databases cl (fuel + 1) page_id =
        childLoopAux cl.retrieve (fun cid => get_child_databases cl fuel cid)
          page_id script []) := by
  refine ⟨?_, ?_, ?_⟩
  · intro cl sc fuel st pid hp hp'
    constructor
    · simp [discover_all_databases, hp, hp']
    · simp [discover_all_databases, hp, hp']
  · intro script e rest
    exact searchGo_fst_error script e rest []
  · intro cl fuel page_id script e rest h
    simp only [get_child_databases]
    rw [h]
    exact childLoopAux_error script _ _ _ e rest []

/-- The C3 witness's tree-scan client: the root page's script raises on
its second call. -/
def c3Child : ChildClient :=
  ⟨fun _ => [.ok ⟨[⟨"child_database", "d1"⟩], true, some "c"⟩, .error "boom"],
   fun i => .ok ⟨i, some [⟨some "T"⟩], .obj [], none⟩⟩

/-- The C3 witness's search client: raises on its second call. -/
def c3Search : SearchClient :=
  [.ok ⟨[⟨"s1", some [⟨some "S"⟩], .obj [], none⟩], true, some "c"⟩,
   .error "net"]

/-- C3 witness: the concrete failing clients still produce a merged,
persisted snapshot, and each strategy yields its partial result. -/
theorem c3_discovery_never_raises_witness :
    ((discover_all_databases c3Child c3Search 1
        ⟨some "root", [], none⟩).1 =
      dictUpdate (dictUpdate [] (get_child_databases c3Child 1 "root"))
        (search_all_databases c3Search).1 ∧
     (discover_all_databases c3Child c3Search 1
        ⟨some "root", [], none⟩).2 =
      save_cache ⟨some "root",
        (discover_all_databases c3Child c3Search 1 ⟨some "root", [], none⟩).1,
        none⟩) ∧
    (search_all_databases
        ([.ok ⟨[⟨"s1", some [⟨some "S"⟩], .obj [], none⟩], true, some "c"⟩]
          ++ .error "net" :: [])).1 =
      (search_all_databases
        [.ok ⟨[⟨"s1", some [⟨some "S"⟩], .obj [], none⟩], true, some "c"⟩]).1 ∧
    get_child_databases c3Child (0 + 1) "root" =
      childLoopAux c3Child.retrieve
        (fun cid => get_child_databases c3Child 0 cid) "root"
        [.ok ⟨[⟨"child_database", "d1"⟩], true, some "c"⟩] [] :=
  ⟨c3_discovery_never_raises.1 c3Child c3Search 1
      ⟨some "root", [], none⟩ "root" rfl (by decide),
   c3_discovery_never_raises.2.1
      [.ok ⟨[⟨"s1", some [⟨some "S"⟩], .obj [], none⟩], true, some "c"⟩]
      "net" [],
   c3_discovery_never_raises.2.2 c3Child 0 "root"
      [.ok ⟨[⟨"child_database", "d1"⟩], true, some "c"⟩] "boom" [] rfl⟩

/-- C4 counterexample: decoding the encoder payload directly does not
return the original value — the payload carries no `type` tag, so
`extract_property_value` falls through to `str(prop)`; at `v = 5`,
`extract_property_value(number_property(5))` is not `5`. -/
theorem c4_codec_counterexample :
    extract_property_value (number_property 5) ≠ .ok (.num 5) := by
  intro h
  have h' : Except.ok (JVal.str (pyRepr (.obj (number_property 5)))) =
      (Except.ok (JVal.num 5) : Except PyErr JVal) := h
  exact JVal.noConfusion (Except.ok.inj h')

/-- C4 (amended): as composed directly, decode after encode returns the
textual representation `str(payload)` of the whole payload for every
representative kind (text, number, boolean, option list, date), because
the encoders emit no `type` tag; with the property's `type` tag adjoined
to the payload, the round-trip holds for number, boolean, option list,
and (start-only) date, but still fails for text: the text encoders store
the value under `text.content` while the decoder reads `plain_text`, so
decoding returns the empty string. -/
theorem c4_codec_round_trip_amended :
    (∀ v : Int, extract_property_value (number_property v) =
      .ok (.str (pyRepr (.obj (number_property v))))) ∧
    (∀ s : String, extract_property_value (rich_text_property s) =
      .ok (.str (pyRepr (.obj (rich_text_property s))))) ∧
    (∀ b : Bool, extract_property_value (checkbox_property b) =
      .ok (.str (pyRepr (.obj (checkbox_property b))))) ∧
    (∀ names : List String, extract_property_value (multi_select_property names) =
      .ok (.str (pyRepr (.obj (multi_select_property names))))) ∧
    (∀ s : String, extract_property_value (date_property s none) =
      .ok (.str (pyRepr (.obj (date_property s none))))) ∧
    (∀ v : Int, extract_property_value
      (("type", .str "number") :: number_property v) = .ok (.num v)) ∧
    (∀ b : Bool, extract_property_value
      (("type", .str "checkbox") :: checkbox_property b) = .ok (.bool b)) ∧
    (∀ names : List String, extract_property_value
      (("type", .str "multi_select") :: multi_select_property names) =
      .ok (.arr (names.map .str))) ∧
    (∀ s : String, extract_property_value
      (("type", .str "date") :: date_property s none) = .ok (.str s)) ∧
    (∀ s : String, extract_property_value
      (("type", .str "rich_text") :: rich_text_property s) = .ok (.str "")) := by
  refine ⟨fun v => rfl, fun s => rfl, fun b => rfl, fun names => rfl,
    fun s => rfl, fun v => rfl, fun b => rfl, ?_, fun s => rfl, fun s => rfl⟩
  intro names
  have h0 : extract_property_value
      (("type", JVal.str "multi_select") :: multi_select_property names) =
      (getEach (names.map fun n => JVal.obj [("name", JVal.str n)]) "name").bind
        (fun vals => pure (JVal.arr vals)) := rfl
  rw [h0, getEach_multi_select]
  rfl

/-- C5: saving the snapshot and loading it back reconstructs an equal
snapshot — the same titles bound, in order, to records with equal `id`,
`title`, `properties` and `parent_page_id` — and `load_cache` reports
success. -/
theorem c5_cache_round_trip :
    ∀ st : DiscoveryState,
      (load_cache (save_cache st)).1 = true ∧
      (load_cache (save_cache st)).2.databases_cache = st.databases_cache := by
  intro st
  constructor
  · simp [load_cache, save_cache, cacheFromJson_toJson]
  · simp [load_cache, save_cache, cacheFromJson_toJson]

/-- The first, continuing page of the C6 witness. -/
def c6Page1 : SearchPage :=
  ⟨[⟨"p1", some [⟨some "Projects"⟩], .obj [], none⟩], true, some "cur"⟩

/-- The final page of the C6 witness. -/
def c6Last : SearchPage :=
  ⟨[⟨"t1", some [⟨some "Tasks"⟩], .obj [], none⟩], false, none⟩

/-- C6: a client whose listing reports `has_more = true` for `N`
consecutive responses and `false` on the next makes the search strategy
issue exactly `N + 1` listing calls, accumulate the items of all `N + 1`
responses, and stop — whatever the script holds afterwards. -/
theorem c6_pagination_calls :
    ∀ (ps : List SearchPage) (last : SearchPage) (rest : SearchClient),
      (∀ p ∈ ps, p.has_more = true) → last.has_more = false →
      search_all_databases (ps.map .ok ++ .ok last :: rest) =
        (searchPagesFold (ps ++ [last]) [], ps.length + 1) := by
  intro ps last rest hall hlast
  exact searchGo_run ps last rest [] hall hlast

/-- C6 witness: one continuing page and one final page, with a further
response never requested. -/
theorem c6_pagination_calls_witness :
    search_all_databases ([c6Page1].map .ok ++ .ok c6Last :: [.error "x"]) =
      (searchPagesFold ([c6Page1] ++ [c6Last]) [], 1 + 1) :=
  c6_pagination_calls [c6Page1] c6Last [.error "x"] (by decide) rfl

/-- A database object with an empty (or absent) title array is titled
with the fixed placeholder. -/
theorem extract_database_title_empty (db : DbObject)
    (h : db.title.getD [] = []) : extract_database_title db = "Untitled" := by
  unfold extract_database_title
  rw [h]

/-- C7: `_extract_database_title` returns the plain text of the first
element of the object's title array, and the fixed placeholder
`"Untitled"` when that array is empty or the key is missing; hence two
collections with empty title arrays collapse to the single snapshot key
`"Untitled"`, the later one winning. -/
theorem c7_title_extraction :
    (∀ (db : DbObject) (x : RichTextItem) (rest : List RichTextItem)
       (s : String),
      db.title = some (x :: rest) → x.plain_text = some s →
      extract_database_title db = s) ∧
    (∀ db : DbObject,
      db.title = none ∨ db.title = some ([] : List RichTextItem) →
      extract_database_title db = "Untitled") ∧
    (∀ d1 d2 : DbObject, d1.title.getD [] = [] → d2.title.getD [] = [] →
      (search_all_databases [.ok ⟨[d1, d2], false, none⟩]).1 =
        [("Untitled",
          ⟨d2.id, "Untitled", d2.properties, d2.parent_page_id.getD ""⟩)]) := by
  refine ⟨?_, ?_, ?_⟩
  · intro db x rest s hx hs
    unfold extract_database_title
    rw [hx]
    simp [hs]
  · intro db h
    rcases h with h | h
    · unfold extract_database_title
      rw [h]
      rfl
    · unfold extract_database_title
      rw [h]
      rfl
  · intro d1 d2 h1 h2
    have t1 := extract_database_title_empty d1 h1
    have t2 := extract_database_title_empty d2 h2
    simp [search_all_databases, searchGo, searchInsert, t1, t2, dictSet]

/-- C7 witness: a one-element title array resolves to its plain text; two
concrete untitled collections collapse onto one `"Untitled"` entry. -/
theorem c7_title_extraction_witness :
    extract_database_title ⟨"u", some [⟨some "Hello"⟩], .obj [], none⟩ =
      "Hello" ∧
    extract_database_title ⟨"u1", some [], .obj [], none⟩ = "Untitled" ∧
    (search_all_databases
        [.ok ⟨[⟨"u1", some [], .obj [], none⟩,
               ⟨"u2", none, .obj [], some "pp"⟩], false, none⟩]).1 =
      [("Untitled", ⟨"u2", "Untitled", .obj [], "pp"⟩)] :=
  ⟨c7_title_extraction.1 ⟨"u", some [⟨some "Hello"⟩], .obj [], none⟩
      ⟨some "Hello"⟩ [] "Hello" rfl rfl,
   c7_title_extraction.2.1 ⟨"u1", some [], .obj [], none⟩ (Or.inr rfl),
   c7_title_extraction.2.2 ⟨"u1", some [], .obj [], none⟩
      ⟨"u2", none, .obj [], some "pp"⟩ rfl rfl⟩

/-- C8: for every property object whose type tag is not one of the
handled kinds — a string outside the handled list, or not a string at
all — `extract_property_value` does not raise and returns `str(prop)`,
the textual representation of the whole property object, which is never
the empty string. -/
theorem c8_unknown_type_fallback :
    (∀ (prop : PyDict) (tag : String),
      dget prop "type" (.str "") = .str tag → tag ∉ handledTypeTags →
      extract_property_value prop = .ok (.str (pyRepr (.obj prop))) ∧
      pyRepr (.obj prop) ≠ "") ∧
    (∀ prop : PyDict,
      (∀ s : String, dget prop "type" (.str "") ≠ .str s) →
      extract_property_value prop = .ok (.str (pyRepr (.obj prop)))) := by
  constructor
  · intro prop tag h htag
    simp only [handledTypeTags, List.mem_cons, not_or, List.not_mem_nil,
      not_false_iff, and_true] at htag
    obtain ⟨n1, n2, n3, n4, n5, n6, n7, n8, n9, n10, n11, n12, n13⟩ := htag
    refine ⟨?_, pyRepr_obj_ne_empty prop⟩
    simp only [extract_property_value, h]
    simp [n1, n2, n3, n4, n5, n6, n7, n8, n9, n10, n11, n12, n13]
  · intro prop h
    cases hd : dget prop "type" (.str "") with
    | str s => exact absurd hd (h s)
    | num n => simp [extract_property_value, hd]
    | bool b => simp [extract_property_value, hd]
    | null => simp [extract_property_value, hd]
    | arr es => simp [extract_property_value, hd]
    | obj fs => simp [extract_property_value, hd]

/-- A property object with an unhandled (hypothetical `files`) tag. -/
def c8Prop : PyDict := [("type", .str "files"), ("files", .arr [])]

/-- C8 witness: the fallback at a concrete unhandled property object. -/
theorem c8_unknown_type_fallback_witness :
    extract_property_value c8Prop = .ok (.str (pyRepr (.obj c8Prop))) ∧
    pyRepr (.obj c8Prop) ≠ "" :=
  c8_unknown_type_fallback.1 c8Prop "files" rfl (by decide)

/-- C9: when the properties payload does not parse, `create_entry`
returns the explicit parse-error reply and attempts nothing — no name
resolution and no remote creation; some action is attempted exactly when
the payload parses, and the first action is then the name resolution. -/
theorem c9_invalid_payload_no_remote_call :
    ∀ (loads : String → Option JVal) (cache : DbDict)
      (created_id database_name properties_json : String),
      (loads properties_json = none →
        create_entry loads cache created_id database_name properties_json =
          ("Error: properties_json is not valid JSON", [])) ∧
      ((create_entry loads cache created_id database_name
          properties_json).2 ≠ [] ↔ (loads properties_json).isSome = true) ∧
      (∀ props : JVal, loads properties_json = some props →
        (create_entry loads cache created_id database_name
          properties_json).2.head? = some (.resolveName database_name)) := by
  intro loads cache cid dn pj
  refine ⟨?_, ?_, ?_⟩
  · intro h
    simp [create_entry, h]
  · cases h : loads pj with
    | none => simp [create_entry, h]
    | some props =>
      cases hid : get_database_id cache dn with
      | none => simp [create_entry, h, hid]
      | some i => simp [create_entry, h, hid]
  · intro props h
    cases hid : get_database_id cache dn with
    | none => simp [create_entry, h, hid]
    | some i => simp [create_entry, h, hid]

/-- C9 witness: a payload rejected by the parse. -/
theorem c9_invalid_payload_no_remote_call_witness :
    create_entry (fun _ => none) [("Tasks", sampleInfoA)] "pid" "Tasks"
      "not json" = ("Error: properties_json is not valid JSON", []) ∧
    ((create_entry (fun _ => none) [("Tasks", sampleInfoA)] "pid" "Tasks"
      "not json").2 ≠ [] ↔
      ((fun (_ : String) => (none : Option JVal)) "not json").isSome = true) :=
  ⟨(c9_invalid_payload_no_remote_call (fun _ => none)
      [("Tasks", sampleInfoA)] "pid" "Tasks" "not json").1 rfl,
   (c9_invalid_payload_no_remote_call (fun _ => none)
      [("Tasks", sampleInfoA)] "pid" "Tasks" "not json").2.1⟩
